import Mathlib

/-!
Verification of the `smart_ptr` repository's shared/weak ownership core
(`src/src/shared_ptr.hpp`, `src/src/weak_ptr.hpp`, which inlines
`detail/control_block.hpp`).

The embedding models the control block as a record of its two counters
(`std::atomic<long>` fields modelled as `Int`), the stored resource pointer
(`Option Addr`, `none` for a null pointer), plus two instrumentation fields
that record the observable effects of the block's operations: how many times
the stored deleter has been invoked, and whether the block has executed
`delete this`.  Heap allocation of control blocks is modelled as a list of
blocks indexed by address.
-/

namespace SmartPtr

/-- Model of a machine address (of a resource object or a control block). -/
abbrev Addr := Nat

/-- Embedding of `detail::control_block<T, D, A>` (control_block.hpp).
`use_count` and `weak_use_count` are the `std::atomic<long>` counters
`_use_count` and `_weak_use_count`; `ptr` is the stored resource pointer
`_ptr` (`none` = null).  `deleter_calls` counts invocations of `_deleter(_ptr)`
and `freed` records execution of `delete this`; both instrument effects that
the C++ code performs but does not store. -/
structure ControlBlock where
  use_count : Int
  weak_use_count : Int
  ptr : Option Addr
  deleter_calls : Nat
  freed : Bool
deriving DecidableEq

/-- `control_block::control_block(T* p)` together with the member
initializers `_use_count{1}` and `_weak_use_count{1}` (control_block.hpp):
a fresh block holds strong count 1, weak count 1 and the given pointer. -/
def initControlBlock (p : Option Addr) : ControlBlock :=
  { use_count := 1, weak_use_count := 1, ptr := p, deleter_calls := 0, freed := false }

/-- `control_block::inc_ref`: `++_use_count`. -/
def inc_ref (cb : ControlBlock) : ControlBlock :=
  { cb with use_count := cb.use_count + 1 }

/-- `control_block::inc_wref`: `++_weak_use_count`. -/
def inc_wref (cb : ControlBlock) : ControlBlock :=
  { cb with weak_use_count := cb.weak_use_count + 1 }

/-- `control_block::dec_wref`: `if (--_weak_use_count == 0) delete this;`.
The self-deletion is recorded in the `freed` flag. -/
def dec_wref (cb : ControlBlock) : ControlBlock :=
  let cb1 := { cb with weak_use_count := cb.weak_use_count - 1 }
  if cb1.weak_use_count = 0 then { cb1 with freed := true } else cb1

/-- `control_block::dec_ref`:
`if (--_use_count == 0) { if (_ptr) _deleter(_ptr); dec_wref(); }`.
The deleter invocation is recorded in `deleter_calls`. -/
def dec_ref (cb : ControlBlock) : ControlBlock :=
  let cb1 := { cb with use_count := cb.use_count - 1 }
  if cb1.use_count = 0 then
    let cb2 :=
      if cb1.ptr.isSome then { cb1 with deleter_calls := cb1.deleter_calls + 1 } else cb1
    dec_wref cb2
  else cb1

/-- `control_block::expired`: `return _use_count == 0;`. -/
def cb_expired (cb : ControlBlock) : Bool :=
  cb.use_count = 0

/-- `weak_ptr::use_count` (weak_ptr.hpp:93):
`return (_control_block) ? _control_block->use_count() : 0;`.
The handle's `_control_block` pointer is modelled as `Option ControlBlock`,
`none` standing for a null control-block pointer. -/
def wp_use_count : Option ControlBlock → Int
  | none => 0
  | some cb => cb.use_count

/-- `weak_ptr::expired` (weak_ptr.hpp:98):
`return (_control_block) ? _control_block->expired() : false;`.
Note the null branch yields `false`, not `true`. -/
def wp_expired : Option ControlBlock → Bool
  | none => false
  | some cb => cb_expired cb

/-- `shared_ptr::use_count` (shared_ptr.hpp:274):
`return (_control_block) ? _control_block->use_count() : 0;`. -/
def sp_use_count : Option ControlBlock → Int
  | none => 0
  | some cb => cb.use_count

/-- Outcome of running a `shared_ptr` constructor on a single control block.
`threw` models a `bad_weak_ptr` exception propagating (no object produced,
no count changed); `nullDeref` models the undefined behavior of calling
`_control_block->inc_ref()` through a null `_control_block` pointer;
`ok p c` is a completed handle with stored pointer `p` and control-block
pointer `c` (the block in its post-construction state). -/
inductive CtorResult where
  | threw
  | nullDeref
  | ok (ptr : Option Addr) (cb : Option ControlBlock)
deriving DecidableEq

/-- `shared_ptr::shared_ptr(const weak_ptr<U>&)` (shared_ptr.hpp:152):
copies `wp._ptr` and `wp._control_block`, then
`if (wp.expired()) throw bad_weak_ptr{}; else _control_block->inc_ref();`.
When `wp`'s control-block pointer is null, `wp.expired()` is `false`
(see `wp_expired`) and the else branch dereferences the null pointer. -/
def sharedFromWeak (p : Option Addr) (c : Option ControlBlock) : CtorResult :=
  if wp_expired c then CtorResult.threw
  else
    match c with
    | none => CtorResult.nullDeref
    | some cb => CtorResult.ok p (some (inc_ref cb))

/-- `weak_ptr::lock` (weak_ptr.hpp:103):
`return (expired()) ? shared_ptr<T>{} : shared_ptr<T>{*this};`.
The default-constructed `shared_ptr<T>{}` has null `_ptr` and null
`_control_block`; the non-expired branch runs the
`shared_ptr(const weak_ptr<U>&)` constructor on the same handle. -/
def lock (p : Option Addr) (c : Option ControlBlock) : CtorResult :=
  if wp_expired c then CtorResult.ok none none
  else sharedFromWeak p c

/-- `weak_ptr::weak_ptr(shared_ptr<U> const&)` (weak_ptr.hpp:39):
copies `sp._ptr` and `sp._control_block`, then
`if (_control_block) _control_block->inc_wref();`.  Returns the new weak
handle's two members, with the shared block in its updated state. -/
def weakFromShared (spPtr : Option Addr) (c : Option ControlBlock) :
    Option Addr × Option ControlBlock :=
  (spPtr, c.map inc_wref)

/-- `shared_ptr::shared_ptr(std::nullptr_t p, D d)` (shared_ptr.hpp:91):
`_ptr{nullptr}, _control_block{new detail::control_block<T, D>{p, std::move(d)}}`.
Returns the handle's stored pointer (null) and the freshly allocated block,
whose stored resource pointer is null. -/
def constructNullWithDeleter : Option Addr × ControlBlock :=
  (none, initControlBlock none)

/-- Model of the intended semantics of `shared_ptr::owner_before`
(shared_ptr.hpp:290) and `weak_ptr::owner_before` (weak_ptr.hpp:109).
The source line `return std::less<>(_control_block, sp._control_block);`
is ill-formed C++: it is a two-argument constructor call on the empty class
`std::less<void>` (and its result would not convert to `bool`), so any
instantiation of `owner_before` fails to compile.  The doc comment in the
source states the intent: comparison of the control-block addresses, i.e.
`std::less<>{}(_control_block, sp._control_block)`.  This definition embeds
that intent.  A control-block pointer is `Option Addr` (`none` = null);
`cbKey` maps it injectively into `Nat` with null below every real address. -/
def cbKey : Option Addr → Nat
  | none => 0
  | some a => a + 1

/-- Address comparison of two control-block pointers (the documented intent
of `owner_before`, see `cbKey`). -/
def owner_before (x y : Option Addr) : Bool :=
  cbKey x < cbKey y

/-- Heap of control blocks; a block's address is its index in the list.
Allocation (`new detail::control_block...`) appends a block. -/
abbrev Heap := List ControlBlock

/-- The two members of a `shared_ptr<T>` handle (shared_ptr.hpp:300):
`element_type* _ptr` and `detail::control_block_base* _control_block`,
the latter as an address into the `Heap` (`none` = null). -/
structure SharedPtrH where
  ptr : Option Addr
  cb : Option Nat
deriving DecidableEq

/-- `std::bad_alloc` propagating out of `new detail::control_block...`. -/
inductive AllocErr where
  | badAlloc
deriving DecidableEq

/-- `shared_ptr::shared_ptr(U* p)` (shared_ptr.hpp:67):
`_ptr{p}, _control_block{new detail::control_block<U>{p}}`.
`allocOk` models whether the `new` expression succeeds.  On success the
allocation appends one fresh block (strong 1, weak 1, stored pointer `p`)
and the handle stores `p` and the new block's address.  On failure the
`std::bad_alloc` propagates out of the constructor: no object is produced,
the heap is untouched, and nothing has been done to `p` (in particular no
deleter has run, and no block has taken ownership of `p`). -/
def constructFromRaw (h : Heap) (p : Addr) (allocOk : Bool) :
    Except AllocErr SharedPtrH × Heap :=
  if allocOk then
    (Except.ok { ptr := some p, cb := some h.length }, h ++ [initControlBlock (some p)])
  else
    (Except.error AllocErr.badAlloc, h)

/-- `shared_ptr::use_count` read through the heap: null handle gives 0;
a non-null `_control_block` pointer always refers to an allocated block,
whose `_use_count` is returned (a dangling address reads as 0, a case the
modelled constructors never produce). -/
def heap_use_count (h : Heap) (sp : SharedPtrH) : Int :=
  match sp.cb with
  | none => 0
  | some i =>
    match h[i]? with
    | some cb => cb.use_count
    | none => 0

/-- `shared_ptr::shared_ptr(const shared_ptr<U>& sp, T* p)` — the aliasing
constructor (shared_ptr.hpp:106): `_ptr{p}, _control_block{sp._control_block}`
then `if (_control_block) _control_block->inc_ref();`.  Returns the new
handle and the heap with the shared block's strong count bumped (a dangling
address leaves the heap as is; unreachable for handles the modelled
constructors produce). -/
def aliasCtor (h : Heap) (sp : SharedPtrH) (p : Option Addr) : SharedPtrH × Heap :=
  match sp.cb with
  | none => ({ ptr := p, cb := none }, h)
  | some i =>
    ({ ptr := p, cb := some i },
      match h[i]? with
      | some cb => h.set i (inc_ref cb)
      | none => h)

/-- Claim C5: for every empty `weak_ptr` (null control-block pointer),
`use_count()` returns 0 as claimed, but `expired()` returns `false`, not
`true`: the null branch of `weak_ptr::expired` yields `false`, contradicting
its own doc comment `Checks if use_count == 0`. -/
theorem empty_weak_use_count_zero_but_not_expired :
    wp_use_count none = 0 ∧ wp_expired none = false := by
  constructor <;> rfl

/-- Claim C2: evaluating `shared_ptr::shared_ptr(const weak_ptr<U>&)` on an
empty (null control block) `weak_ptr` — which has `use_count() == 0` and so
is expired in the spec's sense — does not throw `bad_weak_ptr`: because
`wp.expired()` is `false` for a null control block, the constructor takes the
increment branch and dereferences the null `_control_block` pointer.
On a non-null control block the constructor does behave as claimed:
it throws exactly when the strong count is zero (leaving the block
untouched), and otherwise increments the strong count by one and shares the
block. -/
theorem shared_from_weak_null_deref :
    sharedFromWeak none none = CtorResult.nullDeref ∧
    wp_use_count none = 0 ∧
    (∀ (cb : ControlBlock) (p : Option Addr),
      sharedFromWeak p (some cb) =
        if cb.use_count = 0 then CtorResult.threw
        else CtorResult.ok p (some (inc_ref cb))) := by
  refine ⟨rfl, rfl, ?_⟩
  intro cb p
  by_cases h : cb.use_count = 0 <;>
    simp [sharedFromWeak, wp_expired, cb_expired, h]

/-- Claim C3: evaluating `weak_ptr::lock` on an empty (null control block)
`weak_ptr`: since `expired()` returns `false` for a null control block,
`lock` constructs `shared_ptr<T>{*this}`, which dereferences the null
`_control_block` pointer instead of returning an empty `shared_ptr`.
On a non-null control block `lock` behaves as claimed: an empty
`shared_ptr` when the strong count is zero, and otherwise a new handle
sharing the block with the strong count incremented; and no execution of
`lock` throws `bad_weak_ptr`. -/
theorem lock_on_empty_null_deref :
    lock none none = CtorResult.nullDeref ∧
    (∀ (cb : ControlBlock) (p : Option Addr),
      lock p (some cb) =
        if cb.use_count = 0 then CtorResult.ok none none
        else CtorResult.ok p (some (inc_ref cb))) ∧
    (∀ (p : Option Addr) (c : Option ControlBlock),
      (lock p c == CtorResult.threw) = false) := by
  refine ⟨rfl, ?_, ?_⟩
  · intro cb p
    by_cases h : cb.use_count = 0 <;>
      simp [lock, sharedFromWeak, wp_expired, cb_expired, h]
  · intro p c
    match c with
    | none => simp [lock, sharedFromWeak, wp_expired]
    | some cb =>
      by_cases h : cb.use_count = 0 <;>
        simp [lock, sharedFromWeak, wp_expired, cb_expired, h]

/-- Claim C10: the block produced by `shared_ptr(std::nullptr_t, D)` stores a
null resource pointer and has `use_count() == 1`; when its strong count
reaches zero via `dec_ref`, the `if (_ptr)` guard skips the deleter, yet the
implicit weak unit is still released (`dec_wref` cascade) and, with no other
weak holders, the block frees itself. -/
theorem null_resource_block_skips_deleter :
    (constructNullWithDeleter.2).use_count = 1 ∧
    sp_use_count (some constructNullWithDeleter.2) = 1 ∧
    (dec_ref constructNullWithDeleter.2).deleter_calls = 0 ∧
    (dec_ref constructNullWithDeleter.2).weak_use_count = 0 ∧
    (dec_ref constructNullWithDeleter.2).freed = true := by
  refine ⟨rfl, rfl, ?_, ?_, ?_⟩ <;> decide

/-- Claim C9 (intended semantics, see `owner_before`): address comparison of
control-block pointers is a strict total order over control-block identity:
`owner_before x y` holds exactly when `x`'s key precedes `y`'s; any two
pointers are related one way, the other way, or equal; never both ways; and
two handles with the same control block (whatever their stored `get()`
pointers) compare neither-before-the-other. -/
theorem owner_before_strict_total_order :
    ∀ x y : Option Addr,
      (owner_before x y = true ↔ cbKey x < cbKey y) ∧
      (owner_before x y = true ∨ owner_before y x = true ∨ x = y) ∧
      (owner_before x y && owner_before y x) = false ∧
      owner_before x x = false := by
  intro x y
  refine ⟨by simp [owner_before], ?_, ?_, by simp [owner_before]⟩
  · rcases Nat.lt_trichotomy (cbKey x) (cbKey y) with h | h | h
    · exact Or.inl (by simp [owner_before, h])
    · refine Or.inr (Or.inr ?_)
      cases x <;> cases y <;> simp_all [cbKey]
    · exact Or.inr (Or.inl (by simp [owner_before, h]))
  · rw [Bool.and_eq_false_iff]
    simp only [owner_before, decide_eq_false_iff_not, not_lt]
    omega

/-- Claim C6: constructing a `shared_ptr` from a fresh raw pointer `p`
allocates exactly one control block — the heap grows by one, all existing
blocks are untouched, and the fresh block sits at the fresh address —
initialized with strong count 1 and weak count 1; the resulting handle has
`use_count() == 1` and `get() == p`. -/
theorem raw_ctor_fresh_block (h : Heap) (p : Addr) :
    constructFromRaw h p true =
      (Except.ok { ptr := some p, cb := some h.length },
        h ++ [initControlBlock (some p)]) ∧
    (h ++ [initControlBlock (some p)]).length = h.length + 1 ∧
    (h ++ [initControlBlock (some p)]).take h.length = h ∧
    (h ++ [initControlBlock (some p)])[h.length]? = some (initControlBlock (some p)) ∧
    (initControlBlock (some p)).use_count = 1 ∧
    (initControlBlock (some p)).weak_use_count = 1 ∧
    heap_use_count (h ++ [initControlBlock (some p)])
      { ptr := some p, cb := some h.length } = 1 ∧
    ({ ptr := some p, cb := some h.length } : SharedPtrH).ptr = some p := by
  refine ⟨rfl, by simp, List.take_left h _, ?_, rfl, rfl, ?_, rfl⟩
  · simp
  · simp [heap_use_count, initControlBlock]

/-- Claim C4: when control-block allocation fails during
`shared_ptr::shared_ptr(U* p)`, the constructor reports the
resource-exhaustion error (`std::bad_alloc` propagates) and `p` is not
leaked into a dangling state: the failure occurs before ownership of `p` is
transferred — no object is produced, no control block has taken ownership
of `p`, and the heap (hence every block's deleter count) is exactly as
before, so the caller still owns `p`. -/
theorem raw_ctor_alloc_failure_no_leak (h : Heap) (p : Addr) :
    (constructFromRaw h p false).1 = Except.error AllocErr.badAlloc ∧
    (constructFromRaw h p false).2 = h ∧
    (∀ i : Nat, ((constructFromRaw h p false).2)[i]? = h[i]?) := by
  exact ⟨rfl, rfl, fun i => rfl⟩

/-- Claim C8: the aliasing constructor applied to a handle `sp` (with a
non-null control block at address `i` holding block state `cb`) and a
pointer `p` produces a handle that shares `sp`'s control block (same
address `i`), with the block's strong count incremented by one; afterwards
the new handle's `use_count()` equals `sp`'s (both read the same updated
block, `cb.use_count + 1`), while the new handle's stored pointer is `p`. -/
theorem alias_ctor_shares_block (h : Heap) (i : Nat) (cb : ControlBlock)
    (q p : Option Addr) (hi : h[i]? = some cb) :
    aliasCtor h { ptr := q, cb := some i } p =
      ({ ptr := p, cb := some i }, h.set i (inc_ref cb)) ∧
    (inc_ref cb).use_count = cb.use_count + 1 ∧
    heap_use_count (h.set i (inc_ref cb)) { ptr := p, cb := some i } =
      heap_use_count (h.set i (inc_ref cb)) { ptr := q, cb := some i } ∧
    heap_use_count (h.set i (inc_ref cb)) { ptr := p, cb := some i } =
      cb.use_count + 1 ∧
    ({ ptr := p, cb := some i } : SharedPtrH).ptr = p := by
  have hlt : i < h.length := by
    by_contra hge
    simp [List.getElem?_eq_none (Nat.le_of_not_lt hge)] at hi
  refine ⟨by simp [aliasCtor, hi], rfl, rfl, ?_, rfl⟩
  simp [heap_use_count, List.getElem?_set_self', hlt, inc_ref]

/-- Witness for `alias_ctor_shares_block` at a one-block heap. -/
theorem alias_ctor_shares_block_witness :
    ([initControlBlock (some 0)] : Heap)[0]? = some (initControlBlock (some 0)) ∧
    (aliasCtor [initControlBlock (some 0)] { ptr := some 0, cb := some 0 } (some 1) =
      ({ ptr := some 1, cb := some 0 },
        ([initControlBlock (some 0)] : Heap).set 0 (inc_ref (initControlBlock (some 0)))) ∧
    (inc_ref (initControlBlock (some 0))).use_count =
      (initControlBlock (some 0)).use_count + 1 ∧
    heap_use_count (([initControlBlock (some 0)] : Heap).set 0
        (inc_ref (initControlBlock (some 0)))) { ptr := some 1, cb := some 0 } =
      heap_use_count (([initControlBlock (some 0)] : Heap).set 0
        (inc_ref (initControlBlock (some 0)))) { ptr := some 0, cb := some 0 } ∧
    heap_use_count (([initControlBlock (some 0)] : Heap).set 0
        (inc_ref (initControlBlock (some 0)))) { ptr := some 1, cb := some 0 } =
      (initControlBlock (some 0)).use_count + 1 ∧
    ({ ptr := some 1, cb := some 0 } : SharedPtrH).ptr = some 1) :=
  ⟨rfl, alias_ctor_shares_block [initControlBlock (some 0)] 0
    (initControlBlock (some 0)) (some 0) (some 1) rfl⟩

/-- Claim C7: round trip through a weak reference.  For a live handle on a
block `cb` with `0 < cb.use_count`, constructing a `weak_ptr` from it
(`inc_wref`, leaving the strong count unchanged) and calling `lock()` on
that weak handle yields a completed `shared_ptr` sharing the same block,
whose `use_count()` is the original count plus one. -/
theorem weak_roundtrip (cb : ControlBlock) (p : Option Addr)
    (hpos : 0 < cb.use_count) :
    lock p (weakFromShared p (some cb)).2 =
      CtorResult.ok p (some (inc_ref (inc_wref cb))) ∧
    sp_use_count (some (inc_ref (inc_wref cb))) = cb.use_count + 1 := by
  have hne : cb.use_count ≠ 0 := by omega
  constructor
  · simp [weakFromShared, lock, sharedFromWeak, wp_expired, cb_expired, inc_wref, hne]
  · simp [sp_use_count, inc_ref, inc_wref]

/-- Witness for `weak_roundtrip` at a fresh one-owner block. -/
theorem weak_roundtrip_witness :
    0 < (initControlBlock (some 0)).use_count ∧
    (lock (some 0) (weakFromShared (some 0) (some (initControlBlock (some 0)))).2 =
      CtorResult.ok (some 0) (some (inc_ref (inc_wref (initControlBlock (some 0))))) ∧
    sp_use_count (some (inc_ref (inc_wref (initControlBlock (some 0))))) =
      (initControlBlock (some 0)).use_count + 1) :=
  ⟨by decide, weak_roundtrip (initControlBlock (some 0)) (some 0) (by decide)⟩

/-- The four counter operations of `control_block_base`
(control_block.hpp:170). -/
inductive Op where
  | incRef
  | incWref
  | decRef
  | decWref
deriving DecidableEq

/-- Dispatch of one operation on a block (the virtual calls of
`control_block_base` resolved to `control_block`'s overrides). -/
def applyOp (cb : ControlBlock) : Op → ControlBlock
  | Op.incRef => inc_ref cb
  | Op.incWref => inc_wref cb
  | Op.decRef => dec_ref cb
  | Op.decWref => dec_wref cb

/-- Run a sequence of operations on a block. -/
def exec (cb : ControlBlock) : List Op → ControlBlock
  | [] => cb
  | op :: ops => exec (applyOp cb op) ops

/-- Handle discipline: which operation sequences can actually be issued
against a block by `shared_ptr`/`weak_ptr` handles.  `s` counts the live
shared handles and `w` the live weak handles referencing the block.
`inc_ref` is issued by copy/aliasing construction from a live shared handle
(`0 < s`), `dec_ref` by destruction of a live shared handle, `inc_wref` by
constructing a weak handle from a live shared or weak handle, `dec_wref` by
destruction of a live weak handle.  (Only the external `dec_wref` calls
appear here; the cascaded `dec_wref` inside `dec_ref` is part of `dec_ref`
itself.) -/
def validFrom : Nat → Nat → List Op → Bool
  | _, _, [] => true
  | s, w, Op.incRef :: ops => decide (0 < s) && validFrom (s + 1) w ops
  | s, w, Op.decRef :: ops => decide (0 < s) && validFrom (s - 1) w ops
  | s, w, Op.incWref :: ops => (decide (0 < s) || decide (0 < w)) && validFrom s (w + 1) ops
  | s, w, Op.decWref :: ops => decide (0 < w) && validFrom s (w - 1) ops

/-- A sequence issued against a block fresh from a `shared_ptr` raw-pointer
constructor: one live shared handle, no weak handles. -/
def valid (ops : List Op) : Bool := validFrom 1 0 ops

/-- Number of live shared handles after a sequence. -/
def sAfter : Nat → List Op → Nat
  | s, [] => s
  | s, Op.incRef :: ops => sAfter (s + 1) ops
  | s, Op.decRef :: ops => sAfter (s - 1) ops
  | s, Op.incWref :: ops => sAfter s ops
  | s, Op.decWref :: ops => sAfter s ops

/-- Number of live weak handles after a sequence. -/
def wAfter : Nat → List Op → Nat
  | w, [] => w
  | w, Op.incRef :: ops => wAfter w ops
  | w, Op.decRef :: ops => wAfter w ops
  | w, Op.incWref :: ops => wAfter (w + 1) ops
  | w, Op.decWref :: ops => wAfter (w - 1) ops

/-- The control-block invariant relating the block's state to the live
handle counts `s` and `w`: the strong counter equals the number of live
shared handles; the weak counter equals the number of live weak handles
plus the implicit collective unit while owners exist; the stored pointer
never changes; the deleter has run exactly once as soon as (and only when)
the strong count has reached zero, and only for a non-null stored pointer;
the block has self-freed exactly when both counts are zero. -/
def Inv (s w : Nat) (p : Option Addr) (cb : ControlBlock) : Prop :=
  cb.use_count = (s : Int) ∧
  cb.weak_use_count = (w : Int) + (if 0 < s then 1 else 0) ∧
  cb.ptr = p ∧
  cb.deleter_calls = (if s = 0 then (if p.isSome then 1 else 0) else 0) ∧
  (cb.freed = true ↔ (s = 0 ∧ w = 0))

lemma Inv_incRef {s w : Nat} {p : Option Addr} {cb : ControlBlock}
    (hs : 0 < s) (h : Inv s w p cb) : Inv (s + 1) w p (inc_ref cb) := by
  obtain ⟨h1, h2, h3, h4, h5⟩ := h
  refine ⟨?_, ?_, h3, ?_, ?_⟩
  · simp [inc_ref, h1]
  · simpa [inc_ref, hs] using h2
  · simpa [inc_ref, Nat.pos_iff_ne_zero.mp hs] using h4
  · simp [inc_ref, h5]
    omega

lemma Inv_incWref {s w : Nat} {p : Option Addr} {cb : ControlBlock}
    (hsw : 0 < s ∨ 0 < w) (h : Inv s w p cb) : Inv s (w + 1) p (inc_wref cb) := by
  obtain ⟨h1, h2, h3, h4, h5⟩ := h
  refine ⟨by simpa [inc_wref] using h1, ?_, by simpa [inc_wref] using h3,
    by simpa [inc_wref] using h4, ?_⟩
  · by_cases hs : 0 < s
    · simp [inc_wref, h2, hs]
    · simp [inc_wref, h2, hs]
  · simp [inc_wref, h5]
    omega

lemma dec_wref_spec (u wk : Int) (pp : Option Addr) (d : Nat) (f : Bool) :
    dec_wref ⟨u, wk, pp, d, f⟩ =
      if wk - 1 = 0 then ⟨u, wk - 1, pp, d, true⟩ else ⟨u, wk - 1, pp, d, f⟩ := rfl

lemma dec_ref_spec (u wk : Int) (pp : Option Addr) (d : Nat) (f : Bool) :
    dec_ref ⟨u, wk, pp, d, f⟩ =
      if u - 1 = 0 then
        dec_wref (if pp.isSome then ⟨u - 1, wk, pp, d + 1, f⟩ else ⟨u - 1, wk, pp, d, f⟩)
      else ⟨u - 1, wk, pp, d, f⟩ := rfl

lemma Inv_decWref {s w : Nat} {p : Option Addr} {cb : ControlBlock}
    (hw : 0 < w) (h : Inv s w p cb) : Inv s (w - 1) p (dec_wref cb) := by
  obtain ⟨u, wk, pp, d, f⟩ := cb
  obtain ⟨h1, h2, h3, h4, h5⟩ := h
  dsimp only at h1 h2 h3 h4 h5
  subst h1 h2 h3 h4
  by_cases hs : 0 < s
  · -- owners still exist: the implicit unit keeps the counter positive
    have hz : ¬((w : Int) + (if 0 < s then 1 else 0) - 1 = 0) := by
      simp [hs]; omega
    rw [dec_wref_spec, if_neg hz]
    refine ⟨rfl, ?_, rfl, rfl, ?_⟩
    · simp [hs]; omega
    · dsimp only; rw [h5]; omega
  · have hs0 : s = 0 := by omega
    subst hs0
    by_cases hw1 : w = 1
    · have hz : (w : Int) + (if 0 < 0 then 1 else 0) - 1 = 0 := by
        simp [hw1]
      rw [dec_wref_spec, if_pos hz]
      refine ⟨rfl, ?_, rfl, rfl, ?_⟩
      · simp [hw1]
      · simp [hw1]
    · have hz : ¬((w : Int) + (if 0 < 0 then 1 else 0) - 1 = 0) := by
        simp; omega
      rw [dec_wref_spec, if_neg hz]
      refine ⟨rfl, ?_, rfl, rfl, ?_⟩
      · simp; omega
      · dsimp only; rw [h5]; omega

lemma Inv_decRef {s w : Nat} {p : Option Addr} {cb : ControlBlock}
    (hs : 0 < s) (h : Inv s w p cb) : Inv (s - 1) w p (dec_ref cb) := by
  obtain ⟨u, wk, pp, d, f⟩ := cb
  obtain ⟨h1, h2, h3, h4, h5⟩ := h
  dsimp only at h1 h2 h3 h4 h5
  subst h1 h2 h3 h4
  by_cases h1s : s = 1
  · -- the post-decrement strong count is zero: deleter (if non-null), cascade
    have hu : (s : Int) - 1 = 0 := by rw [h1s]; norm_num
    rw [dec_ref_spec, if_pos hu]
    cases pp with
    | none =>
      rw [if_neg (by simp)]
      by_cases hw0 : w = 0
      · have hz : (w : Int) + (if 0 < s then 1 else 0) - 1 = 0 := by
          simp [hs, hw0]
        rw [dec_wref_spec, if_pos hz]
        refine ⟨?_, ?_, rfl, ?_, ?_⟩ <;> simp [h1s, hw0]
      · have hz : ¬((w : Int) + (if 0 < s then 1 else 0) - 1 = 0) := by
          simp [hs]; omega
        rw [dec_wref_spec, if_neg hz]
        refine ⟨?_, ?_, rfl, ?_, ?_⟩
        · simp [h1s]
        · simp [h1s, hs]
        · simp [h1s]
        · dsimp only; rw [h5]; omega
    | some a =>
      rw [if_pos (by simp)]
      by_cases hw0 : w = 0
      · have hz : (w : Int) + (if 0 < s then 1 else 0) - 1 = 0 := by
          simp [hs, hw0]
        rw [dec_wref_spec, if_pos hz]
        refine ⟨?_, ?_, rfl, ?_, ?_⟩ <;> simp [h1s, hw0]
      · have hz : ¬((w : Int) + (if 0 < s then 1 else 0) - 1 = 0) := by
          simp [hs]; omega
        rw [dec_wref_spec, if_neg hz]
        refine ⟨?_, ?_, rfl, ?_, ?_⟩
        · simp [h1s]
        · simp [h1s, hs]
        · simp [h1s]
        · dsimp only; rw [h5]; omega
  · -- other owners remain: plain decrement
    have hu : ¬((s : Int) - 1 = 0) := by omega
    rw [dec_ref_spec, if_neg hu]
    have hs1 : 0 < s - 1 := by omega
    refine ⟨?_, ?_, rfl, ?_, ?_⟩
    · dsimp only; omega
    · simp [hs, hs1]
    · simp [Nat.pos_iff_ne_zero.mp hs, Nat.pos_iff_ne_zero.mp hs1]
    · dsimp only; rw [h5]; omega

lemma exec_inv : ∀ (ops : List Op) (s w : Nat) (p : Option Addr) (cb : ControlBlock),
    validFrom s w ops = true → Inv s w p cb →
    Inv (sAfter s ops) (wAfter w ops) p (exec cb ops) := by
  intro ops
  induction ops with
  | nil => intro s w p cb _ h; exact h
  | cons op rest ih =>
    intro s w p cb hv h
    cases op with
    | incRef =>
      simp only [validFrom, Bool.and_eq_true, decide_eq_true_eq] at hv
      simp only [exec, applyOp, sAfter, wAfter]
      exact ih (s + 1) w p (inc_ref cb) hv.2 (Inv_incRef hv.1 h)
    | incWref =>
      simp only [validFrom, Bool.and_eq_true, Bool.or_eq_true, decide_eq_true_eq] at hv
      simp only [exec, applyOp, sAfter, wAfter]
      exact ih s (w + 1) p (inc_wref cb) hv.2 (Inv_incWref hv.1 h)
    | decRef =>
      simp only [validFrom, Bool.and_eq_true, decide_eq_true_eq] at hv
      simp only [exec, applyOp, sAfter, wAfter]
      exact ih (s - 1) w p (dec_ref cb) hv.2 (Inv_decRef hv.1 h)
    | decWref =>
      simp only [validFrom, Bool.and_eq_true, decide_eq_true_eq] at hv
      simp only [exec, applyOp, sAfter, wAfter]
      exact ih s (w - 1) p (dec_wref cb) hv.2 (Inv_decWref hv.1 h)

lemma validFrom_append : ∀ (pre suf : List Op) (s w : Nat),
    validFrom s w (pre ++ suf) = true →
    validFrom s w pre = true ∧
      validFrom (sAfter s pre) (wAfter w pre) suf = true := by
  intro pre
  induction pre with
  | nil => intro suf s w h; exact ⟨rfl, h⟩
  | cons op rest ih =>
    intro suf s w h
    rw [List.cons_append] at h
    cases op with
    | incRef =>
      simp only [validFrom, Bool.and_eq_true, decide_eq_true_eq, sAfter, wAfter] at h ⊢
      exact ⟨⟨h.1, (ih suf (s + 1) w h.2).1⟩, (ih suf (s + 1) w h.2).2⟩
    | incWref =>
      simp only [validFrom, Bool.and_eq_true, Bool.or_eq_true, decide_eq_true_eq,
        sAfter, wAfter] at h ⊢
      exact ⟨⟨h.1, (ih suf s (w + 1) h.2).1⟩, (ih suf s (w + 1) h.2).2⟩
    | decRef =>
      simp only [validFrom, Bool.and_eq_true, decide_eq_true_eq, sAfter, wAfter] at h ⊢
      exact ⟨⟨h.1, (ih suf (s - 1) w h.2).1⟩, (ih suf (s - 1) w h.2).2⟩
    | decWref =>
      simp only [validFrom, Bool.and_eq_true, decide_eq_true_eq, sAfter, wAfter] at h ⊢
      exact ⟨⟨h.1, (ih suf s (w - 1) h.2).1⟩, (ih suf s (w - 1) h.2).2⟩

lemma validFrom_zero_nil : ∀ (ops : List Op), validFrom 0 0 ops = true → ops = [] := by
  intro ops h
  cases ops with
  | nil => rfl
  | cons op rest => cases op <;> simp [validFrom] at h

/-- Claim C1: across any handle-disciplined sequence of
`inc_ref`/`inc_wref`/`dec_ref`/`dec_wref` operations on a block born from a
raw-pointer `shared_ptr` constructor (non-null stored pointer), at every
prefix of the sequence: the weak count can be zero only once the strong
count is zero; the deleter has run exactly once when and only when the
strong count has reached zero (never while owners remain); the block has
self-freed exactly when both counts are zero; and once the block is freed
the remainder of the sequence is empty — no further operation touches it. -/
theorem control_block_lifecycle (a : Addr) (ops pre suf : List Op)
    (hv : valid ops = true) (hsplit : ops = pre ++ suf) :
    ((exec (initControlBlock (some a)) pre).weak_use_count = 0 →
      (exec (initControlBlock (some a)) pre).use_count = 0) ∧
    (exec (initControlBlock (some a)) pre).deleter_calls =
      (if (exec (initControlBlock (some a)) pre).use_count = 0 then 1 else 0) ∧
    ((exec (initControlBlock (some a)) pre).freed = true ↔
      ((exec (initControlBlock (some a)) pre).use_count = 0 ∧
        (exec (initControlBlock (some a)) pre).weak_use_count = 0)) ∧
    ((exec (initControlBlock (some a)) pre).freed = true → suf = []) := by
  subst hsplit
  unfold valid at hv
  obtain ⟨hpre, hsuf⟩ := validFrom_append pre suf 1 0 hv
  have hInv0 : Inv 1 0 (some a) (initControlBlock (some a)) := by
    refine ⟨rfl, by norm_num [initControlBlock], rfl, by norm_num [initControlBlock], ?_⟩
    simp [initControlBlock]
  have hI := exec_inv pre 1 0 (some a) (initControlBlock (some a)) hpre hInv0
  obtain ⟨h1, h2, h3, h4, h5⟩ := hI
  refine ⟨?_, ?_, ?_, ?_⟩
  · intro hwz
    rw [h2] at hwz
    rw [h1]
    by_cases hsp : 0 < sAfter 1 pre
    · simp [hsp] at hwz
      omega
    · have : sAfter 1 pre = 0 := by omega
      simp [this]
  · rw [h1, h4]
    simp
  · rw [h1, h2, h5]
    by_cases hsp : 0 < sAfter 1 pre
    · simp only [hsp, if_true]
      omega
    · simp only [hsp, if_false]
      omega
  · intro hfr
    obtain ⟨hs0, hw0⟩ := h5.mp hfr
    rw [hs0, hw0] at hsuf
    exact validFrom_zero_nil suf hsuf

/-- Witness for `control_block_lifecycle`: block at address 0, sequence
create-weak, drop-last-owner (deleter fires, implicit unit released),
drop-weak (block self-frees), split with empty remainder. -/
theorem control_block_lifecycle_witness :
    valid [Op.incWref, Op.decRef, Op.decWref] = true ∧
    ([Op.incWref, Op.decRef, Op.decWref] : List Op) =
      [Op.incWref, Op.decRef, Op.decWref] ++ [] ∧
    (((exec (initControlBlock (some 0)) [Op.incWref, Op.decRef, Op.decWref]).weak_use_count = 0 →
      (exec (initControlBlock (some 0)) [Op.incWref, Op.decRef, Op.decWref]).use_count = 0) ∧
    (exec (initControlBlock (some 0)) [Op.incWref, Op.decRef, Op.decWref]).deleter_calls =
      (if (exec (initControlBlock (some 0)) [Op.incWref, Op.decRef, Op.decWref]).use_count = 0
        then 1 else 0) ∧
    ((exec (initControlBlock (some 0)) [Op.incWref, Op.decRef, Op.decWref]).freed = true ↔
      ((exec (initControlBlock (some 0)) [Op.incWref, Op.decRef, Op.decWref]).use_count = 0 ∧
        (exec (initControlBlock (some 0)) [Op.incWref, Op.decRef, Op.decWref]).weak_use_count = 0)) ∧
    ((exec (initControlBlock (some 0)) [Op.incWref, Op.decRef, Op.decWref]).freed = true →
      ([] : List Op) = [])) :=
  ⟨by decide, rfl,
    control_block_lifecycle 0 [Op.incWref, Op.decRef, Op.decWref]
      [Op.incWref, Op.decRef, Op.decWref] [] (by decide) rfl⟩

end SmartPtr
